import Mathlib

/-!
Verification of the sardana-albaem instrument acquisition client.

This file gives a shallow embedding of the claim-relevant parts of
`src/sardana_albaem/ctrl/em2.py` (firmware quirk flags, long-acquisition
scale correction, ZMQ stream receiver, countable queue) and of
`src/sardana_albaem/ctrl/Albaem2CoTiCtrl.py` (PrepareOne, StateAll,
ReadAll's formula application, AbortOne), together with theorems settling
the specification claims.

Modelling conventions: Python ints are `Nat`/`Int`; Python floats are `ℚ`
(the quirk arithmetic is exact at the inputs considered); Python
exceptions are `Except`/explicit error results; the mutable receiver
state is threaded explicitly.  Device I/O (socket commands) is
represented by the values that would be sent / returned.
-/

/- ## Python tuple comparison (used by `Em2.software_version` quirk checks)

`Em2.software_version` is a tuple of ints parsed from the version string;
the quirk properties compare it with tuple literals using Python's
lexicographic tuple ordering, where a proper prefix is strictly smaller. -/

def pyTupleLt : List Nat → List Nat → Bool
  | [], [] => false
  | [], _ :: _ => true
  | _ :: _, [] => false
  | x :: xs, y :: ys =>
    if x < y then true else if y < x then false else pyTupleLt xs ys

def pyTupleLe : List Nat → List Nat → Bool
  | [], _ => true
  | _ :: _, [] => false
  | x :: xs, y :: ys =>
    if x < y then true else if y < x then false else pyTupleLe xs ys

namespace Em2

/- `Em2.read_index_bug`: `software_version <= (2, 0)` (em2.py lines 138-142). -/
def read_index_bug (software_version : List Nat) : Bool :=
  pyTupleLe software_version [2, 0]

/- `Em2.long_acquisition_scaling_bug`:
`(1, 3, 5) <= software_version < (2, 1)` (em2.py lines 144-150). -/
def long_acquisition_scaling_bug (software_version : List Nat) : Bool :=
  pyTupleLe [1, 3, 5] software_version && pyTupleLt software_version [2, 1]

/- `Em2.zmq_streaming_supported`: `software_version >= (2, 2)`
(em2.py lines 152-156). -/
def zmq_streaming_supported (software_version : List Nat) : Bool :=
  pyTupleLe [2, 2] software_version

end Em2

/- ## Spec-side version comparison (for claim C1)

The spec states the quirk ranges over (major, minor, patch) triples with
lexicographic comparison and missing components defaulting to 0.  These
definitions follow the spec's words, to be compared with the source-side
flags above. -/

def specVersionLe (a b c x y z : Nat) : Prop :=
  a < x ∨ (a = x ∧ (b < y ∨ (b = y ∧ c ≤ z)))

def specVersionLt (a b c x y z : Nat) : Prop :=
  a < x ∨ (a = x ∧ (b < y ∨ (b = y ∧ c < z)))

instance (a b c x y z : Nat) : Decidable (specVersionLe a b c x y z) := by
  unfold specVersionLe; infer_instance

instance (a b c x y z : Nat) : Decidable (specVersionLt a b c x y z) := by
  unfold specVersionLt; infer_instance

/- ## Per-channel data (`_prepare_scpi_format_data`, CHAN01..CHAN04)

`CHANNEL_MIN = 1`, `CHANNEL_MAX = 4`: the SCPI-format reply is a mapping
from the four fixed channel keys to lists of samples. -/

structure ScpiData where
  chan01 : List ℚ
  chan02 : List ℚ
  chan03 : List ℚ
  chan04 : List ℚ
  deriving DecidableEq

def emptyScpiData : ScpiData := ⟨[], [], [], []⟩

def mapScpiData (f : ℚ → ℚ) (d : ScpiData) : ScpiData :=
  ⟨d.chan01.map f, d.chan02.map f, d.chan03.map f, d.chan04.map f⟩

/- ## `int.bit_length` (Python builtin used by the scale correction)

Python's `int.bit_length(n)` for `n ≥ 0` is the least `k` with `n < 2^k`. -/

def bitLength (n : Nat) : Nat :=
  if h : n = 0 then 0 else bitLength (n / 2) + 1
decreasing_by
  exact Nat.div_lt_self (Nat.pos_of_ne_zero h) (by norm_num)

namespace Em2

/- `Em2._correct_for_long_acquisition_scaling_bug` (em2.py lines 314-329).
`acquisition_time` is in seconds; Python's `int()` truncation of the
nonnegative quotient is `Int.floor ∘ Int.toNat`. -/
def correct_for_long_acquisition_scaling_bug (acquisition_time : ℚ)
    (data : ScpiData) : ScpiData :=
  let nb_samples_without_overflow : ℚ := 8192
  let adc_raw_sampling_rate : ℚ := 200000
  let adc_oversampling_factor : ℚ := 64
  let sampling_rate := adc_raw_sampling_rate / adc_oversampling_factor
  let accumulator_overflow_time := nb_samples_without_overflow / sampling_rate
  let nb_accumulator_overflows : Nat :=
    (⌊acquisition_time / accumulator_overflow_time⌋).toNat
  if nb_accumulator_overflows > 0 then
    let nb_bits_lost_for_overflow := bitLength nb_accumulator_overflows
    let factor : ℚ := 2 ^ nb_bits_lost_for_overflow
    mapScpiData (fun v => v * factor) data
  else
    data

end Em2

/- ## `CountableQueue` (em2.py lines 452-479)

A FIFO queue plus two counters: `total_count` (items ever enqueued) and
`front_position` (items ever dequeued).  `queue.Queue.get()` on an empty
queue blocks forever; that case is modelled as `none`. -/

structure CountableQueue (α : Type) where
  items : List α
  front_position : Nat
  total_count : Nat
  deriving DecidableEq

namespace CountableQueue

def init {α : Type} : CountableQueue α := ⟨[], 0, 0⟩

def put {α : Type} (q : CountableQueue α) (item : α) : CountableQueue α :=
  ⟨q.items ++ [item], q.front_position, q.total_count + 1⟩

def get {α : Type} (q : CountableQueue α) : Option (α × CountableQueue α) :=
  match q.items with
  | [] => none
  | item :: rest => some (item, ⟨rest, q.front_position + 1, q.total_count⟩)

end CountableQueue

/- Interleaved put/get operation sequences on a `CountableQueue`
(for the Ingestion Queue invariant, claim C9). -/

inductive QOp (α : Type) where
  | put (a : α)
  | get
  deriving DecidableEq

/- Payloads of the put operations of a sequence, in order. -/
def putsOf {α : Type} (ops : List (QOp α)) : List α :=
  ops.filterMap fun op =>
    match op with
    | .put a => some a
    | .get => none

/- Run a sequence of operations; `none` if a `get` hit an empty queue
(which would block forever in Python).  Returns the final queue and the
list of items the gets returned, in order. -/
def execOps {α : Type} (q : CountableQueue α) :
    List (QOp α) → Option (CountableQueue α × List α)
  | [] => some (q, [])
  | .put a :: rest => execOps (q.put a) rest
  | .get :: rest =>
    match q.get with
    | none => none
    | some (item, q') =>
      match execOps q' rest with
      | none => none
      | some (qf, returned) => some (qf, item :: returned)

/- ## Measurement messages and the ZMQ stream receiver
(em2.py lines 336-402)

A data message carries a `frame_number` and one sample per channel key
`CHAN01`..`CHAN04`. -/

structure Message where
  frame_number : Int
  chan01 : ℚ
  chan02 : ℚ
  chan03 : ℚ
  chan04 : ℚ
  deriving DecidableEq

/- Receiver-side worker state (`_reset_worker_state`, em2.py lines 345-348). -/
structure RecvState where
  messages : CountableQueue Message
  expected_frame_number : Int
  last_worker_error : String
  deriving DecidableEq

/- Errors raised by `ZmqStreamReceiver.read` (all `RuntimeError` in the
source, with messages identifying the numbers shown here). -/
inductive ReadError where
  | wrongStart (start_position front_position : Nat)
  | tooMany (requested available : Nat)
  | droppedFrame (received expected : Int)
  | blockedOnEmptyQueue
  deriving DecidableEq

namespace ZmqStreamReceiver

def reset_worker_state : RecvState :=
  ⟨CountableQueue.init, 0, ""⟩

/- `_abort_if_any_frames_dropped` (em2.py lines 386-395): raises before
incrementing the expected frame number; on a match returns the
incremented expected frame number. -/
def abort_if_any_frames_dropped (expected_frame_number : Int)
    (message : Message) : Except ReadError Int :=
  if message.frame_number ≠ expected_frame_number then
    .error (.droppedFrame message.frame_number expected_frame_number)
  else
    .ok (expected_frame_number + 1)

/- Appending `message[channel]` for each channel key (em2.py lines 364-365). -/
def appendMessage (d : ScpiData) (m : Message) : ScpiData :=
  ⟨d.chan01 ++ [m.chan01], d.chan02 ++ [m.chan02],
   d.chan03 ++ [m.chan03], d.chan04 ++ [m.chan04]⟩

/- The `for _ in range(nb_points)` loop of `read` (em2.py lines 361-365),
with the receiver state threaded; on an exception the mutations already
performed survive. -/
def readLoop : RecvState → ScpiData → Nat → Except ReadError ScpiData × RecvState
  | s, acc, 0 => (.ok acc, s)
  | s, acc, n + 1 =>
    match s.messages.get with
    | none => (.error .blockedOnEmptyQueue, s)
    | some (message, q') =>
      let s' : RecvState := { s with messages := q' }
      match abort_if_any_frames_dropped s'.expected_frame_number message with
      | .error e => (.error e, s')
      | .ok expected' =>
        readLoop { s' with expected_frame_number := expected' }
          (appendMessage acc message) n

/- `_get_nb_messages_to_read` (em2.py lines 368-384). -/
def get_nb_messages_to_read (s : RecvState) (start_position : Nat)
    (nb_points : Option Nat) : Except ReadError Nat :=
  let front_position := s.messages.front_position
  let total_count := s.messages.total_count
  let available := total_count - front_position
  if start_position ≠ front_position then
    .error (.wrongStart start_position front_position)
  else
    match nb_points with
    | none => .ok available
    | some k =>
      if k > available then .error (.tooMany k available) else .ok k

/- `ZmqStreamReceiver.read` (em2.py lines 358-366). -/
def read (s : RecvState) (start_position : Nat) (nb_points : Option Nat) :
    Except ReadError ScpiData × RecvState :=
  match get_nb_messages_to_read s start_position nb_points with
  | .error e => (.error e, s)
  | .ok n => readLoop s emptyScpiData n

end ZmqStreamReceiver

/- Consecutive frame numbers starting from a given expected value. -/
def framesConsecutive : Int → List Message → Prop
  | _, [] => True
  | e, m :: ms => m.frame_number = e ∧ framesConsecutive (e + 1) ms

instance : ∀ (e : Int) (ms : List Message), Decidable (framesConsecutive e ms)
  | _, [] => .isTrue trivial
  | e, _m :: ms =>
    have : Decidable (framesConsecutive (e + 1) ms) := instDecidableFramesConsecutive _ _
    instDecidableAnd

namespace Em2

/- `Em2._read_via_scpi` (em2.py lines 303-312).  The device's reply to
`ACQU:MEAS? start[,nb]` is abstracted as `device_data`; with the read
index quirk the start position sent on the wire is decremented (possibly
to -1), so wire positions are `Int`. -/
def read_via_scpi (device_data : Int → Option Nat → ScpiData)
    (read_index_bug_flag long_acquisition_scaling_bug_flag : Bool)
    (acquisition_time : ℚ) (start_position : Int) (nb_points : Option Nat) :
    ScpiData :=
  let start_position :=
    if read_index_bug_flag then start_position - 1 else start_position
  let data := device_data start_position nb_points
  if long_acquisition_scaling_bug_flag then
    correct_for_long_acquisition_scaling_bug acquisition_time data
  else
    data

/- `Em2.read` (em2.py lines 296-301): dispatch to the ZMQ receiver when
it is running, otherwise to the SCPI path. -/
def read (zmq_receiver_running : Bool) (recv : RecvState)
    (device_data : Int → Option Nat → ScpiData)
    (read_index_bug_flag long_acquisition_scaling_bug_flag : Bool)
    (acquisition_time : ℚ) (start_position : Nat) (nb_points : Option Nat) :
    Except ReadError ScpiData × RecvState :=
  if zmq_receiver_running then
    ZmqStreamReceiver.read recv start_position nb_points
  else
    (.ok (read_via_scpi device_data read_index_bug_flag
            long_acquisition_scaling_bug_flag acquisition_time
            (start_position : Int) nb_points),
     recv)

end Em2

/- ## Per-channel formulas (Albaem2CoTiCtrl)

A formula is the text `'value'` (any capitalisation; the default) or an
arbitrary expression evaluated with `value` bound to each sample; the
evaluation of a non-default expression is abstracted as a function. -/

inductive Formula where
  | value
  | custom (f : ℚ → ℚ)

def applyFormula : Formula → ℚ → ℚ
  | .value => fun v => v
  | .custom f => f

namespace Albaem2CoTiCtrl

/- `ReadAll`'s per-axis formula step (Albaem2CoTiCtrl.py lines 250-257):
axes 1..4 map to channels CHAN01..CHAN04; the default `'value'` formula
skips evaluation entirely. -/
def applyChannelFormula (formula : Formula) (values : List ℚ) : List ℚ :=
  match formula with
  | .value => values
  | .custom f => values.map f

def readAllApplyFormulas (formulas : Fin 4 → Formula) (d : ScpiData) :
    ScpiData :=
  ⟨applyChannelFormula (formulas 0) d.chan01,
   applyChannelFormula (formulas 1) d.chan02,
   applyChannelFormula (formulas 2) d.chan03,
   applyChannelFormula (formulas 3) d.chan04⟩

/- The data pipeline of `ReadAll` (Albaem2CoTiCtrl.py lines 242-262)
restricted to one fetch: read new points through `Em2.read` and apply
the per-channel formulas to the returned samples. -/
def readAllNewData (zmq_receiver_running : Bool) (recv : RecvState)
    (device_data : Int → Option Nat → ScpiData)
    (read_index_bug_flag long_acquisition_scaling_bug_flag : Bool)
    (acquisition_time : ℚ) (formulas : Fin 4 → Formula)
    (nb_points_fetched : Nat) (data_len : Option Nat) :
    Except ReadError ScpiData × RecvState :=
  match Em2.read zmq_receiver_running recv device_data read_index_bug_flag
      long_acquisition_scaling_bug_flag acquisition_time nb_points_fetched
      data_len with
  | (.ok new_data, recv') => (.ok (readAllApplyFormulas formulas new_data), recv')
  | (.error e, recv') => (.error e, recv')

/- ## Controller state (Albaem2CoTiCtrl.py)

The per-run bookkeeping fields of `Albaem2CoTiCtrl`. -/
structure CtrlState where
  started : Bool
  aborted : Bool
  use_sw_trigger : Bool
  nb_points_read_per_start : Nat
  nb_points_expected_per_start : Nat
  nb_points_fetched : Nat
  deriving DecidableEq

/- Sardana `AcqSynch` synchronization kinds. -/
inductive SyncMode where
  | softwareTrigger
  | softwareGate
  | hardwareTrigger
  | hardwareGate
  | softwareStart
  | hardwareStart
  deriving DecidableEq

/- Sardana coarse states assigned by `StateAll`
(`State.On` = Idle, `State.Moving` = Busy, `State.Fault`). -/
inductive SardState where
  | on
  | moving
  | fault
  deriving DecidableEq

/- Hardware trigger modes selected by `PrepareOne`. -/
inductive TriggerMode where
  | software
  | hardware
  | gate
  deriving DecidableEq

/- Configuration errors (`ValueError`s) raised by `PrepareOne`. -/
inductive CfgError where
  | minIntegrationTime
  | startSyncNotAllowed
  | streamingNotSupported
  | gateWithStreaming
  | unsupportedSync
  deriving DecidableEq

/- Electrometer configuration pushed at the end of `PrepareOne`
(Albaem2CoTiCtrl.py lines 210-215). -/
structure EmConfig where
  acquisition_time : ℚ
  trigger_mode : TriggerMode
  nb_points : Nat
  timestamp_data : Bool
  deriving DecidableEq

/- `_clean_variables` (Albaem2CoTiCtrl.py lines 122-133); the conditional
hardware stop command and the `_new_data` dict are not part of the
modelled state. -/
def clean_variables (s : CtrlState) : CtrlState :=
  { s with
    use_sw_trigger := true
    started := false
    aborted := false
    nb_points_fetched := 0
    nb_points_read_per_start := 0
    nb_points_expected_per_start := 0 }

/- `PrepareOne` (Albaem2CoTiCtrl.py lines 168-215).  `value` is the
integration time in seconds; `streaming_required` is
`Em2.zmq_streaming_required` (acquisition mode FAST_BUFFER) and
`streaming_supported` is `Em2.zmq_streaming_supported`. -/
def PrepareOne (s : CtrlState) (synchronization : SyncMode)
    (streaming_required streaming_supported : Bool) (value : ℚ)
    (repetitions nb_starts : Nat) : Except CfgError (CtrlState × EmConfig) :=
  if value < 1 / 10000 then
    .error .minIntegrationTime
  else if synchronization = .softwareStart ∨ synchronization = .hardwareStart then
    .error .startSyncNotAllowed
  else if streaming_required = true ∧ streaming_supported = false then
    .error .streamingNotSupported
  else if streaming_required = true ∧ synchronization = .hardwareGate then
    .error .gateWithStreaming
  else
    let s1 := { clean_variables s with nb_points_expected_per_start := repetitions }
    let nb_points := repetitions * nb_starts
    match synchronization with
    | .softwareGate | .softwareTrigger =>
      .ok ({ s1 with use_sw_trigger := true },
           ⟨value, .software, nb_points, false⟩)
    | .hardwareTrigger =>
      .ok ({ s1 with use_sw_trigger := false },
           ⟨value, .hardware, nb_points, false⟩)
    | .hardwareGate =>
      .ok ({ s1 with use_sw_trigger := false },
           ⟨value, .gate, nb_points, false⟩)
    | _ => .error .unsupportedSync

/- Hardware states `StateAll` accepts without faulting. -/
def allowedStates : List String := ["ACQUIRING", "RUNNING", "ON", "FAULT"]

/- `StateAll` (Albaem2CoTiCtrl.py lines 140-160).  Returns the resolved
coarse state and whether an immediate `ReadAll` was forced (the
data-readiness-race branch at lines 158-160). -/
def StateAll (hardware_state : String) (s : CtrlState) : SardState × Bool :=
  if hardware_state = "FAULT" ∨ hardware_state ∉ allowedStates then
    (.fault, false)
  else
    if s.nb_points_read_per_start = s.nb_points_expected_per_start
        ∨ s.aborted = true ∨ s.started = false then
      (.on, false)
    else
      (.moving, hardware_state = "ON")

/- `AbortOne` (Albaem2CoTiCtrl.py lines 284-288).  The boolean reports
whether the device stop command (`stop_acquisition`) was issued. -/
def AbortOne (s : CtrlState) : CtrlState × Bool :=
  if s.aborted = false then
    ({ s with aborted := true }, true)
  else
    (s, false)

end Albaem2CoTiCtrl

/- ## Helper lemmas -/

/- `2 ^ bitLength n` is an upper bound: `n < 2 ^ bitLength n`. -/
theorem lt_two_pow_bitLength (n : Nat) : n < 2 ^ bitLength n := by
  induction n using Nat.strong_induction_on with
  | _ n ih =>
    rw [bitLength]
    by_cases h : n = 0
    · simp [h]
    · simp only [h, dite_false]
      have hdiv : n / 2 < n := Nat.div_lt_self (Nat.pos_of_ne_zero h) (by norm_num)
      have hb := ih (n / 2) hdiv
      have hp : 2 ^ (bitLength (n / 2) + 1) = 2 ^ bitLength (n / 2) * 2 :=
        pow_succ 2 _
      omega

/- `bitLength n` is least: any `j` with `n < 2 ^ j` satisfies `bitLength n ≤ j`. -/
theorem bitLength_le_of_lt_two_pow (n : Nat) :
    ∀ j, n < 2 ^ j → bitLength n ≤ j := by
  induction n using Nat.strong_induction_on with
  | _ n ih =>
    intro j hj
    rw [bitLength]
    by_cases h : n = 0
    · simp [h]
    · simp only [h, dite_false]
      have hdiv : n / 2 < n := Nat.div_lt_self (Nat.pos_of_ne_zero h) (by norm_num)
      match j with
      | 0 => simp at hj; omega
      | j' + 1 =>
        have hp : 2 ^ (j' + 1) = 2 ^ j' * 2 := pow_succ 2 _
        have : n / 2 < 2 ^ j' := by omega
        have := ih (n / 2) hdiv j' this
        omega

/- Trace specification of `execOps`: the returned items followed by the
remaining items are exactly the initial items followed by all puts, and
the counters advance by the numbers of puts and gets. -/
theorem execOps_spec {α : Type} :
    ∀ (ops : List (QOp α)) (q qf : CountableQueue α) (returned : List α),
      execOps q ops = some (qf, returned) →
      returned ++ qf.items = q.items ++ putsOf ops ∧
      qf.total_count = q.total_count + (putsOf ops).length ∧
      qf.front_position = q.front_position + returned.length := by
  intro ops
  induction ops with
  | nil =>
    intro q qf returned h
    simp [execOps] at h
    obtain ⟨rfl, rfl⟩ := h
    simp [putsOf]
  | cons op rest ih =>
    intro q qf returned h
    cases op with
    | put a =>
      simp only [execOps] at h
      have := ih (q.put a) qf returned h
      simp only [CountableQueue.put, putsOf, List.filterMap_cons] at this ⊢
      obtain ⟨h1, h2, h3⟩ := this
      simp only [List.length_cons] at h2 ⊢
      refine ⟨?_, by omega, by omega⟩
      simpa [List.append_assoc] using h1
    | get =>
      simp only [execOps] at h
      cases hq : q.get with
      | none => rw [hq] at h; simp at h
      | some pair =>
        obtain ⟨item, q'⟩ := pair
        rw [hq] at h
        dsimp only at h
        cases hrec : execOps q' rest with
        | none => rw [hrec] at h; simp at h
        | some pair' =>
          obtain ⟨qf', returned'⟩ := pair'
          rw [hrec] at h
          simp only [Option.some.injEq, Prod.mk.injEq] at h
          obtain ⟨hqf, hret⟩ := h
          have := ih q' qf' returned' hrec
          obtain ⟨h1, h2, h3⟩ := this
          subst hqf
          subst hret
          unfold CountableQueue.get at hq
          cases hitems : q.items with
          | nil => rw [hitems] at hq; simp at hq
          | cons x xs =>
            rw [hitems] at hq
            simp only [Option.some.injEq, Prod.mk.injEq] at hq
            obtain ⟨rfl, rfl⟩ := hq
            simp only [putsOf, List.filterMap_cons] at h1 h2 ⊢
            constructor
            · simpa [hitems] using h1
            · simp at h1 h2 h3 ⊢
              omega

/- Unfolding `List.foldl` of `appendMessage`: the accumulated per-channel
lists are the accumulator's lists followed by the per-channel samples of
the folded messages, in order. -/
theorem foldl_appendMessage :
    ∀ (msgs : List Message) (acc : ScpiData),
      List.foldl ZmqStreamReceiver.appendMessage acc msgs =
        ⟨acc.chan01 ++ msgs.map Message.chan01,
         acc.chan02 ++ msgs.map Message.chan02,
         acc.chan03 ++ msgs.map Message.chan03,
         acc.chan04 ++ msgs.map Message.chan04⟩ := by
  intro msgs
  induction msgs with
  | nil => intro acc; simp
  | cons m rest ih =>
    intro acc
    simp only [List.foldl_cons, List.map_cons, ih]
    simp [ZmqStreamReceiver.appendMessage]

/- `readLoop` on a gap-free prefix: consumes exactly `n` messages,
accumulates their samples, advances the front position and the expected
frame number by `n`. -/
theorem readLoop_consecutive :
    ∀ (n : Nat) (s : RecvState) (acc : ScpiData),
      n ≤ s.messages.items.length →
      framesConsecutive s.expected_frame_number (s.messages.items.take n) →
      ZmqStreamReceiver.readLoop s acc n =
        (.ok (List.foldl ZmqStreamReceiver.appendMessage acc
            (s.messages.items.take n)),
         ⟨⟨s.messages.items.drop n, s.messages.front_position + n,
           s.messages.total_count⟩,
          s.expected_frame_number + n, s.last_worker_error⟩) := by
  intro n
  induction n with
  | zero =>
    intro s acc _ _
    simp [ZmqStreamReceiver.readLoop]
  | succ n ih =>
    intro s acc hlen hframes
    obtain ⟨⟨items, f, t⟩, e, err⟩ := s
    cases items with
    | nil => simp at hlen
    | cons m rest =>
      simp only [List.take_succ_cons, framesConsecutive] at hframes
      obtain ⟨hm, hrest⟩ := hframes
      have hlen' : n ≤ rest.length := by simpa using hlen
      have step :
          ZmqStreamReceiver.readLoop ⟨⟨m :: rest, f, t⟩, e, err⟩ acc (n + 1) =
            ZmqStreamReceiver.readLoop ⟨⟨rest, f + 1, t⟩, e + 1, err⟩
              (ZmqStreamReceiver.appendMessage acc m) n := by
        simp [ZmqStreamReceiver.readLoop, CountableQueue.get,
          ZmqStreamReceiver.abort_if_any_frames_dropped, hm]
      rw [step, ih ⟨⟨rest, f + 1, t⟩, e + 1, err⟩
        (ZmqStreamReceiver.appendMessage acc m) hlen' (by simpa using hrest)]
      simp only [List.take_succ_cons, List.foldl_cons, List.drop_succ_cons]
      rw [show f + 1 + n = f + (n + 1) by omega,
        show e + 1 + (n : Int) = e + (((n + 1 : Nat) : Int)) by push_cast; ring]

/- `readLoop` hitting a frame gap after a gap-free prefix: the verified
messages and the mismatching one are all consumed (front position
advances past them), the expected frame number advances only over the
verified ones, and the dropped-frame error carries the observed and
expected numbers. -/
theorem readLoop_gap :
    ∀ (good : List Message) (bad : Message) (rest : List Message)
      (n : Nat) (s : RecvState) (acc : ScpiData),
      s.messages.items = good ++ bad :: rest →
      framesConsecutive s.expected_frame_number good →
      bad.frame_number ≠ s.expected_frame_number + good.length →
      good.length < n →
      ZmqStreamReceiver.readLoop s acc n =
        (.error (.droppedFrame bad.frame_number
            (s.expected_frame_number + good.length)),
         ⟨⟨rest, s.messages.front_position + good.length + 1,
           s.messages.total_count⟩,
          s.expected_frame_number + good.length, s.last_worker_error⟩) := by
  intro good
  induction good with
  | nil =>
    intro bad rest n s acc hitems _ hbad hn
    obtain ⟨⟨items, f, t⟩, e, err⟩ := s
    simp only at hitems
    subst hitems
    match n, hn with
    | n + 1, _ =>
      simp only [List.length_nil, Nat.cast_zero, add_zero] at hbad ⊢
      simp [ZmqStreamReceiver.readLoop, CountableQueue.get,
        ZmqStreamReceiver.abort_if_any_frames_dropped, hbad]
  | cons g gs ih =>
    intro bad rest n s acc hitems hframes hbad hn
    obtain ⟨⟨items, f, t⟩, e, err⟩ := s
    simp only at hitems hframes hbad ⊢
    subst hitems
    obtain ⟨hg, hgs⟩ := hframes
    match n, hn with
    | n + 1, hn =>
      have step :
          ZmqStreamReceiver.readLoop ⟨⟨(g :: gs) ++ bad :: rest, f, t⟩, e, err⟩
              acc (n + 1) =
            ZmqStreamReceiver.readLoop ⟨⟨gs ++ bad :: rest, f + 1, t⟩, e + 1, err⟩
              (ZmqStreamReceiver.appendMessage acc g) n := by
        simp [ZmqStreamReceiver.readLoop, CountableQueue.get,
          ZmqStreamReceiver.abort_if_any_frames_dropped, hg]
      have hbad' : bad.frame_number ≠ (e + 1) + (gs.length : Int) := by
        simp only [List.length_cons] at hbad
        push_cast at hbad ⊢
        intro hc
        exact hbad (by linarith)
      have hn' : gs.length < n := by
        simp only [List.length_cons] at hn
        omega
      rw [step, ih bad rest n ⟨⟨gs ++ bad :: rest, f + 1, t⟩, e + 1, err⟩
        (ZmqStreamReceiver.appendMessage acc g) rfl hgs hbad' hn']
      simp only [List.length_cons]
      rw [show f + 1 + gs.length + 1 = f + (gs.length + 1) + 1 by omega,
        show e + 1 + (gs.length : Int) = e + (((gs.length + 1 : Nat) : Int)) by
          push_cast; ring]

/- ## Claim theorems -/

/-- Claim C1, counterexample: the claim asserts firmware exactly 2.0.0 has
the read-index quirk (since `(2,0,0) ≤ (2,0,0)` lexicographically), but
the code's Python tuple comparison `(2,0,0) <= (2,0)` is false, so the
flag is off at version 2.0.0. -/
theorem c1_quirk_flags_counterexample :
    Em2.read_index_bug [2, 0, 0] = false ∧ specVersionLe 2 0 0 2 0 0 := by
  constructor
  · rfl
  · simp [specVersionLe]

/-- Claim C1 (amended): for every firmware triple (a,b,c), the quirk
flags are pure functions of the version: the read-index quirk holds iff
(a,b,c) < 2.0.0 (strictly, i.e. major < 2 — firmware exactly 2.0.0 does
NOT have the quirk), the long-acquisition scale-correction quirk holds
iff 1.3.5 ≤ (a,b,c) < 2.1.0, and streaming is supported iff
(a,b,c) ≥ 2.2.0, all lexicographically. -/
theorem c1_quirk_flags :
    ∀ a b c : Nat,
      (Em2.read_index_bug [a, b, c] = true ↔ specVersionLt a b c 2 0 0) ∧
      (Em2.long_acquisition_scaling_bug [a, b, c] = true ↔
        (specVersionLe 1 3 5 a b c ∧ specVersionLt a b c 2 1 0)) ∧
      (Em2.zmq_streaming_supported [a, b, c] = true ↔
        specVersionLe 2 2 0 a b c) := by
  intro a b c
  refine ⟨?_, ?_, ?_⟩
  · simp only [Em2.read_index_bug, pyTupleLe, specVersionLt]
    split_ifs <;> simp <;> omega
  · simp only [Em2.long_acquisition_scaling_bug, pyTupleLe, pyTupleLt,
      specVersionLe, specVersionLt, Bool.and_eq_true]
    split_ifs <;> simp <;> omega
  · simp only [Em2.zmq_streaming_supported, pyTupleLe, specVersionLe]
    split_ifs <;> simp <;> omega

/-- Claim C4: for every channel-to-samples mapping and acquisition time
T ≥ 0, the long-acquisition scale correction computes
overflow_count = floor(T / overflow_period) with
overflow_period = 8192 / (200000 / 64) = 2.62144 s; if overflow_count > 0
every sample of every channel is multiplied by 2 ^ bit_length(overflow_count),
which is the smallest power of two strictly greater than overflow_count,
and if overflow_count = 0 the mapping is returned unchanged; in
particular T = 6 gives factor 4 mapping CHAN01 = [1, 2] to [4, 8], while
T = 1 leaves samples unchanged. -/
theorem c4_scale_correction :
    (∀ (t : ℚ) (data : ScpiData), 0 ≤ t →
      (8192 : ℚ) / (200000 / 64) = 262144 / 100000 ∧
      ((0 < (⌊t / ((262144 : ℚ) / 100000)⌋).toNat →
        Em2.correct_for_long_acquisition_scaling_bug t data =
          mapScpiData
            (fun v => v * 2 ^ bitLength ((⌊t / ((262144 : ℚ) / 100000)⌋).toNat))
            data ∧
        (⌊t / ((262144 : ℚ) / 100000)⌋).toNat <
          2 ^ bitLength ((⌊t / ((262144 : ℚ) / 100000)⌋).toNat) ∧
        (∀ j, (⌊t / ((262144 : ℚ) / 100000)⌋).toNat < 2 ^ j →
          bitLength ((⌊t / ((262144 : ℚ) / 100000)⌋).toNat) ≤ j)) ∧
       ((⌊t / ((262144 : ℚ) / 100000)⌋).toNat = 0 →
        Em2.correct_for_long_acquisition_scaling_bug t data = data))) ∧
    Em2.correct_for_long_acquisition_scaling_bug 6 ⟨[1, 2], [], [], []⟩ =
      ⟨[4, 8], [], [], []⟩ ∧
    (∀ data, Em2.correct_for_long_acquisition_scaling_bug 1 data = data) := by
  have hperiod : (8192 : ℚ) / (200000 / 64) = 262144 / 100000 := by norm_num
  refine ⟨?_, ?_, ?_⟩
  · intro t data _
    refine ⟨hperiod, ?_, ?_⟩
    · intro hpos
      refine ⟨?_, lt_two_pow_bitLength _, bitLength_le_of_lt_two_pow _⟩
      unfold Em2.correct_for_long_acquisition_scaling_bug
      dsimp only
      rw [hperiod]
      simp only [hpos, if_true]
    · intro hzero
      unfold Em2.correct_for_long_acquisition_scaling_bug
      dsimp only
      rw [hperiod, hzero]
      simp
  · have hfloor : (⌊(6 : ℚ) / (8192 / (200000 / 64))⌋) = 2 := by
      rw [hperiod]
      rw [Int.floor_eq_iff]
      norm_num
    have hbl : bitLength 2 = 2 := by
      simp [bitLength]
    unfold Em2.correct_for_long_acquisition_scaling_bug
    dsimp only
    rw [hfloor, show Int.toNat 2 = 2 from rfl]
    norm_num [hbl, mapScpiData]
  · intro data
    have hfloor : (⌊(1 : ℚ) / (8192 / (200000 / 64))⌋) = 0 := by
      rw [hperiod]
      rw [Int.floor_eq_iff]
      norm_num
    unfold Em2.correct_for_long_acquisition_scaling_bug
    dsimp only
    rw [hfloor]
    simp

/-- Claim C4 witness: the amended general statement instantiated at
T = 1 with a concrete one-sample mapping (overflow count 0, data passes
through unchanged). -/
theorem c4_scale_correction_witness :
    (0 : ℚ) ≤ 1 ∧
    Em2.correct_for_long_acquisition_scaling_bug 1 ⟨[3], [], [], []⟩ =
      ⟨[3], [], [], []⟩ := by
  refine ⟨by norm_num, ?_⟩
  refine ((c4_scale_correction.1 1 ⟨[3], [], [], []⟩ (by norm_num)).2.2 ?_)
  rw [show (⌊(1 : ℚ) / (262144 / 100000)⌋) = 0 by
    rw [Int.floor_eq_iff]; norm_num]
  rfl

/-- Claim C2, counterexample: with one queued message whose frame number
is 1 while the expected frame number is 0, a read from the front with the
default count raises a dropped-frame error instead of returning the
per-channel samples the claim promises. -/
theorem c2_read_contract_counterexample :
    ZmqStreamReceiver.read ⟨⟨[⟨1, 10, 20, 30, 40⟩], 0, 1⟩, 0, ""⟩ 0 none =
      (.error (.droppedFrame 1 0), ⟨⟨[], 1, 1⟩, 0, ""⟩) ∧
    RecvState.messages ⟨⟨[⟨1, 10, 20, 30, 40⟩], 0, 1⟩, 0, ""⟩ =
      ⟨[⟨1, 10, 20, 30, 40⟩], 0, 1⟩ := by
  exact ⟨rfl, rfl⟩

/-- Claim C2 (amended): for every receiver state with front position f
and total count t (counters consistent with the queued items), read(start, n)
raises if start ≠ f, raises if n is not None and n > t − f, and
otherwise — with n defaulting to t − f when None, and provided the n
messages at the front carry the expected consecutive frame numbers —
dequeues exactly n messages and returns a mapping from each of the four
channel identifiers to the list of that channel's n samples in arrival
order. -/
theorem c2_read_contract :
    ∀ (s : RecvState) (start_position : Nat) (nb_points : Option Nat),
      s.messages.total_count =
        s.messages.front_position + s.messages.items.length →
      ((start_position ≠ s.messages.front_position →
        ZmqStreamReceiver.read s start_position nb_points =
          (.error (.wrongStart start_position s.messages.front_position), s)) ∧
       (∀ k, nb_points = some k →
        k > s.messages.total_count - s.messages.front_position →
        ∃ e, ZmqStreamReceiver.read s start_position nb_points =
          (.error e, s)) ∧
       (start_position = s.messages.front_position →
        ∀ n, n = nb_points.getD
            (s.messages.total_count - s.messages.front_position) →
        n ≤ s.messages.total_count - s.messages.front_position →
        framesConsecutive s.expected_frame_number (s.messages.items.take n) →
        ZmqStreamReceiver.read s start_position nb_points =
          (.ok ⟨(s.messages.items.take n).map Message.chan01,
                (s.messages.items.take n).map Message.chan02,
                (s.messages.items.take n).map Message.chan03,
                (s.messages.items.take n).map Message.chan04⟩,
           ⟨⟨s.messages.items.drop n, s.messages.front_position + n,
             s.messages.total_count⟩,
            s.expected_frame_number + n, s.last_worker_error⟩))) := by
  intro s start_position nb_points hwf
  refine ⟨?_, ?_, ?_⟩
  · intro hne
    unfold ZmqStreamReceiver.read ZmqStreamReceiver.get_nb_messages_to_read
    simp [hne]
  · intro k hk hgt
    subst hk
    unfold ZmqStreamReceiver.read ZmqStreamReceiver.get_nb_messages_to_read
    dsimp only
    by_cases hne : start_position = s.messages.front_position
    · simp [hne, hgt]
    · simp [hne]
  · intro heq n hn hle hframes
    subst heq
    have havail : s.messages.total_count - s.messages.front_position =
        s.messages.items.length := by omega
    have hlen : n ≤ s.messages.items.length := by omega
    have hloop := readLoop_consecutive n s emptyScpiData hlen hframes
    have hok : ZmqStreamReceiver.get_nb_messages_to_read s
        s.messages.front_position nb_points = .ok n := by
      unfold ZmqStreamReceiver.get_nb_messages_to_read
      dsimp only
      rw [if_neg (show ¬(s.messages.front_position ≠
        s.messages.front_position) by simp)]
      cases nb_points with
      | none =>
        simp only [Option.getD_none] at hn
        subst hn
        rfl
      | some k =>
        simp only [Option.getD_some] at hn
        subst hn
        dsimp only
        rw [if_neg (show ¬(n > s.messages.total_count -
          s.messages.front_position) by omega)]
    unfold ZmqStreamReceiver.read
    rw [hok]
    dsimp only
    rw [hloop, foldl_appendMessage]
    simp [emptyScpiData]

/-- Claim C2 witness: a gap-free two-message queue read from the front
with the default count returns both messages' samples per channel and
advances the front position and expected frame number by 2. -/
theorem c2_read_contract_witness :
    ZmqStreamReceiver.read
        ⟨⟨[⟨0, 1, 2, 3, 4⟩, ⟨1, 5, 6, 7, 8⟩], 0, 2⟩, 0, ""⟩ 0 none =
      (.ok ⟨[1, 5], [2, 6], [3, 7], [4, 8]⟩, ⟨⟨[], 2, 2⟩, 2, ""⟩) := by
  have h := (c2_read_contract ⟨⟨[⟨0, 1, 2, 3, 4⟩, ⟨1, 5, 6, 7, 8⟩], 0, 2⟩, 0, ""⟩
      0 none rfl).2.2 rfl 2 rfl (by norm_num)
      (by simp [framesConsecutive])
  simpa using h

/-- Claim C3: during a read, a dequeued message whose frame number
differs from the expected sequence number raises a data-loss error
identifying both the observed and expected numbers (without advancing
the expected number); a matching message never raises and advances the
expected number by one; the expected number is 0 after a worker reset. -/
theorem c3_frame_gap_detection :
    (∀ (e : Int) (m : Message), m.frame_number ≠ e →
      ZmqStreamReceiver.abort_if_any_frames_dropped e m =
        .error (.droppedFrame m.frame_number e)) ∧
    (∀ (e : Int) (m : Message), m.frame_number = e →
      ZmqStreamReceiver.abort_if_any_frames_dropped e m = .ok (e + 1)) ∧
    ZmqStreamReceiver.reset_worker_state.expected_frame_number = 0 ∧
    (∀ (s : RecvState) (acc : ScpiData) (n : Nat) (m : Message)
        (q' : CountableQueue Message),
      s.messages.get = some (m, q') →
      (m.frame_number ≠ s.expected_frame_number →
        ZmqStreamReceiver.readLoop s acc (n + 1) =
          (.error (.droppedFrame m.frame_number s.expected_frame_number),
           { s with messages := q' })) ∧
      (m.frame_number = s.expected_frame_number →
        ZmqStreamReceiver.readLoop s acc (n + 1) =
          ZmqStreamReceiver.readLoop
            { s with messages := q',
                     expected_frame_number := s.expected_frame_number + 1 }
            (ZmqStreamReceiver.appendMessage acc m) n)) := by
  refine ⟨?_, ?_, rfl, ?_⟩
  · intro e m hne
    simp [ZmqStreamReceiver.abort_if_any_frames_dropped, hne]
  · intro e m heq
    simp [ZmqStreamReceiver.abort_if_any_frames_dropped, heq]
  · intro s acc n m q' hget
    obtain ⟨⟨items, f, t⟩, e, err⟩ := s
    cases items with
    | nil => simp [CountableQueue.get] at hget
    | cons x xs =>
      simp only [CountableQueue.get, Option.some.injEq, Prod.mk.injEq] at hget
      obtain ⟨rfl, rfl⟩ := hget
      constructor
      · intro hne
        simp only at hne
        simp [ZmqStreamReceiver.readLoop, CountableQueue.get,
          ZmqStreamReceiver.abort_if_any_frames_dropped, hne]
      · intro heq
        simp only at heq
        simp [ZmqStreamReceiver.readLoop, CountableQueue.get,
          ZmqStreamReceiver.abort_if_any_frames_dropped, heq]

/-- Claim C3 witness: concrete instances of the frame check — observed 1
against expected 0 yields the dropped-frame error naming 1 and 0;
observed 1 against expected 1 verifies and advances to 2. -/
theorem c3_frame_gap_detection_witness :
    ZmqStreamReceiver.abort_if_any_frames_dropped 0 ⟨1, 0, 0, 0, 0⟩ =
      .error (.droppedFrame 1 0) ∧
    ZmqStreamReceiver.abort_if_any_frames_dropped 1 ⟨1, 0, 0, 0, 0⟩ = .ok 2 := by
  constructor
  · exact c3_frame_gap_detection.1 0 ⟨1, 0, 0, 0, 0⟩ (by norm_num)
  · exact c3_frame_gap_detection.2.1 1 ⟨1, 0, 0, 0, 0⟩ rfl

/-- Claim C10: a read is not atomic on a data-loss error — if the first k
dequeued messages verify and the (k+1)-th has a frame gap, the raised
error leaves the queue with the front position advanced by k + 1 (the
mismatching message is consumed too) and the expected frame number
advanced by k, with only the messages after the mismatch still queued,
so the consumed messages cannot be re-read by a later front-anchored
read. -/
theorem c10_read_not_atomic :
    ∀ (f : Nat) (e : Int) (err : String) (good : List Message) (bad : Message)
      (rest : List Message) (n : Nat),
      framesConsecutive e good →
      bad.frame_number ≠ e + good.length →
      good.length < n →
      n ≤ good.length + 1 + rest.length →
      ZmqStreamReceiver.read
          ⟨⟨good ++ bad :: rest, f, f + (good.length + 1 + rest.length)⟩, e, err⟩
          f (some n) =
        (.error (.droppedFrame bad.frame_number (e + good.length)),
         ⟨⟨rest, f + good.length + 1, f + (good.length + 1 + rest.length)⟩,
          e + good.length, err⟩) := by
  intro f e err good bad rest n hframes hbad hlt hle
  have hgap := readLoop_gap good bad rest n
    ⟨⟨good ++ bad :: rest, f, f + (good.length + 1 + rest.length)⟩, e, err⟩
    emptyScpiData rfl hframes hbad hlt
  have hok : ZmqStreamReceiver.get_nb_messages_to_read
      ⟨⟨good ++ bad :: rest, f, f + (good.length + 1 + rest.length)⟩, e, err⟩
      f (some n) = .ok n := by
    unfold ZmqStreamReceiver.get_nb_messages_to_read
    dsimp only
    rw [if_neg (show ¬(f ≠ f) by simp)]
    rw [if_neg (show ¬(n > f + (good.length + 1 + rest.length) - f) by omega)]
  unfold ZmqStreamReceiver.read
  rw [hok]
  exact hgap

/-- Claim C10 witness: one verified message (frame 0) followed by a
message with frame 5 while 1 is expected — the read errors naming 5 and
1, the front position ends at 2 (both consumed), and the expected frame
number ends at 1. -/
theorem c10_read_not_atomic_witness :
    framesConsecutive 0 [⟨0, 1, 1, 1, 1⟩] ∧
    ZmqStreamReceiver.read
        ⟨⟨[⟨0, 1, 1, 1, 1⟩, ⟨5, 2, 2, 2, 2⟩], 0, 2⟩, 0, ""⟩ 0 (some 2) =
      (.error (.droppedFrame 5 1), ⟨⟨[], 2, 2⟩, 1, ""⟩) := by
  have hframes : framesConsecutive 0 [(⟨0, 1, 1, 1, 1⟩ : Message)] := by
    simp [framesConsecutive]
  refine ⟨hframes, ?_⟩
  have h := c10_read_not_atomic 0 0 "" [⟨0, 1, 1, 1, 1⟩] ⟨5, 2, 2, 2, 2⟩ [] 2
    hframes (by norm_num) (by norm_num) (by norm_num)
  simpa using h

/-- Claim C9: for every valid sequence of CountableQueue put/get
operations (get only on a non-empty queue), front_position ≤ total_count
holds at the end, the items returned by the gets are exactly the first
front_position put payloads in insertion order (no re-ordering, no
duplicate delivery, oldest first), put increments only total_count by
one, and get increments only front_position by one while returning the
item at the front. -/
theorem c9_queue_invariant :
    ∀ (α : Type) (ops : List (QOp α)) (qf : CountableQueue α)
      (returned : List α),
      execOps CountableQueue.init ops = some (qf, returned) →
      (qf.front_position ≤ qf.total_count ∧
       qf.total_count = (putsOf ops).length ∧
       qf.front_position = returned.length ∧
       returned = (putsOf ops).take returned.length) ∧
      (∀ (q : CountableQueue α) (a : α),
        (q.put a).total_count = q.total_count + 1 ∧
        (q.put a).front_position = q.front_position ∧
        (q.put a).items = q.items ++ [a]) ∧
      (∀ (q : CountableQueue α) (a : α) (q' : CountableQueue α),
        q.get = some (a, q') →
        q'.front_position = q.front_position + 1 ∧
        q'.total_count = q.total_count ∧
        q.items = a :: q'.items) := by
  intro α ops qf returned hexec
  have hspec := execOps_spec ops CountableQueue.init qf returned hexec
  obtain ⟨h1, h2, h3⟩ := hspec
  simp only [CountableQueue.init] at h1 h2 h3
  have hitems : returned ++ qf.items = putsOf ops := by simpa using h1
  refine ⟨⟨?_, by simpa using h2, by simpa using h3, ?_⟩, ?_, ?_⟩
  · have : returned.length ≤ (putsOf ops).length := by
      rw [← hitems]
      simp
    omega
  · rw [← hitems, List.take_left]
  · intro q a
    simp [CountableQueue.put]
  · intro q a q' hget
    unfold CountableQueue.get at hget
    cases hq : q.items with
    | nil => rw [hq] at hget; simp at hget
    | cons x xs =>
      rw [hq] at hget
      simp only [Option.some.injEq, Prod.mk.injEq] at hget
      obtain ⟨rfl, rfl⟩ := hget
      simp [hq]

/-- Claim C9 witness: the invariant and trace properties instantiated on
a concrete interleaving of three puts and two gets. -/
theorem c9_queue_invariant_witness :
    execOps CountableQueue.init
        [QOp.put 5, QOp.put 7, QOp.get, QOp.put 9, QOp.get] =
      some (⟨[9], 2, 3⟩, [5, 7]) ∧
    (2 ≤ 3 ∧ [5, 7] = ([5, 7, 9] : List Nat).take 2) := by
  refine ⟨rfl, ?_, ?_⟩
  · exact (c9_queue_invariant Nat
      [QOp.put 5, QOp.put 7, QOp.get, QOp.put 9, QOp.get]
      ⟨[9], 2, 3⟩ [5, 7] rfl).1.1
  · exact (c9_queue_invariant Nat
      [QOp.put 5, QOp.put 7, QOp.get, QOp.put 9, QOp.get]
      ⟨[9], 2, 3⟩ [5, 7] rfl).1.2.2.2

/-- Claim C5: PrepareOne always raises a configuration error when the
integration time is below 1e-4 s, when the synchronization kind is
SoftwareStart or HardwareStart, when streaming is required but
unsupported, or when streaming is required with HardwareGate
synchronization; for integration time ≥ 1e-4 and a supported
combination it raises nothing and resets all per-start counters. -/
theorem c5_prepare_validation :
    ∀ (s : Albaem2CoTiCtrl.CtrlState) (sync : Albaem2CoTiCtrl.SyncMode)
      (streaming_required streaming_supported : Bool) (value : ℚ)
      (repetitions nb_starts : Nat),
      ((value < 1 / 10000 ∨ sync = .softwareStart ∨ sync = .hardwareStart ∨
        (streaming_required = true ∧ streaming_supported = false) ∨
        (streaming_required = true ∧ sync = .hardwareGate)) →
        ∃ e, Albaem2CoTiCtrl.PrepareOne s sync streaming_required
          streaming_supported value repetitions nb_starts = .error e) ∧
      (1 / 10000 ≤ value → sync ≠ .softwareStart → sync ≠ .hardwareStart →
        ¬(streaming_required = true ∧ streaming_supported = false) →
        ¬(streaming_required = true ∧ sync = .hardwareGate) →
        ∃ s' cfg, Albaem2CoTiCtrl.PrepareOne s sync streaming_required
            streaming_supported value repetitions nb_starts = .ok (s', cfg) ∧
          s'.nb_points_read_per_start = 0 ∧ s'.nb_points_fetched = 0 ∧
          s'.started = false ∧ s'.aborted = false ∧
          s'.nb_points_expected_per_start = repetitions) := by
  intro s sync streaming_required streaming_supported value repetitions nb_starts
  constructor
  · intro hbad
    unfold Albaem2CoTiCtrl.PrepareOne
    by_cases h1 : value < 1 / 10000
    · exact ⟨_, by rw [if_pos h1]⟩
    · rw [if_neg h1]
      by_cases h2 : sync = .softwareStart ∨ sync = .hardwareStart
      · exact ⟨_, by rw [if_pos h2]⟩
      · rw [if_neg h2]
        by_cases h3 : streaming_required = true ∧ streaming_supported = false
        · exact ⟨_, by rw [if_pos h3]⟩
        · rw [if_neg h3]
          by_cases h4 : streaming_required = true ∧ sync = .hardwareGate
          · exact ⟨_, by rw [if_pos h4]⟩
          · tauto
  · intro hval hs1 hs2 hstr hgate
    unfold Albaem2CoTiCtrl.PrepareOne
    rw [if_neg (by exact not_lt.mpr hval), if_neg (by tauto), if_neg hstr,
      if_neg hgate]
    cases sync with
    | softwareTrigger =>
      exact ⟨_, _, rfl, rfl, rfl, rfl, rfl, rfl⟩
    | softwareGate =>
      exact ⟨_, _, rfl, rfl, rfl, rfl, rfl, rfl⟩
    | hardwareTrigger =>
      exact ⟨_, _, rfl, rfl, rfl, rfl, rfl, rfl⟩
    | hardwareGate =>
      exact ⟨_, _, rfl, rfl, rfl, rfl, rfl, rfl⟩
    | softwareStart => exact absurd rfl hs1
    | hardwareStart => exact absurd rfl hs2

/-- Claim C5 witness: a 5e-5 s integration time always raises, and a
valid 1e-3 s software-trigger configuration succeeds with all per-start
counters reset. -/
theorem c5_prepare_validation_witness :
    (∃ e, Albaem2CoTiCtrl.PrepareOne ⟨true, true, true, 3, 4, 5⟩
      .softwareTrigger false true (5 / 100000) 1 1 = .error e) ∧
    (∃ s' cfg, Albaem2CoTiCtrl.PrepareOne ⟨true, true, true, 3, 4, 5⟩
        .softwareTrigger false true (1 / 1000) 2 1 = .ok (s', cfg) ∧
      s'.nb_points_read_per_start = 0 ∧ s'.nb_points_fetched = 0 ∧
      s'.started = false ∧ s'.aborted = false ∧
      s'.nb_points_expected_per_start = 2) := by
  constructor
  · exact (c5_prepare_validation ⟨true, true, true, 3, 4, 5⟩ .softwareTrigger
      false true (5 / 100000) 1 1).1 (Or.inl (by norm_num))
  · exact (c5_prepare_validation ⟨true, true, true, 3, 4, 5⟩ .softwareTrigger
      false true (1 / 1000) 2 1).2 (by norm_num) (by simp) (by simp)
      (by simp) (by simp)

/-- Claim C6: StateAll resolves to Fault iff the hardware state is FAULT
or not among ACQUIRING/RUNNING/ON/FAULT; otherwise it resolves to Idle
(On) iff points read equals points expected, or the run was aborted, or
it was never started; in every remaining case it resolves to Busy
(Moving), and it forces an immediate ReadAll exactly in that Busy case
with the hardware simultaneously reporting ON. -/
theorem c6_state_resolution :
    ∀ (hw : String) (s : Albaem2CoTiCtrl.CtrlState),
      ((Albaem2CoTiCtrl.StateAll hw s).1 = .fault ↔
        (hw = "FAULT" ∨ hw ∉ Albaem2CoTiCtrl.allowedStates)) ∧
      ((Albaem2CoTiCtrl.StateAll hw s).1 = .on ↔
        (¬(hw = "FAULT" ∨ hw ∉ Albaem2CoTiCtrl.allowedStates) ∧
         (s.nb_points_read_per_start = s.nb_points_expected_per_start ∨
          s.aborted = true ∨ s.started = false))) ∧
      ((Albaem2CoTiCtrl.StateAll hw s).1 = .moving ↔
        (¬(hw = "FAULT" ∨ hw ∉ Albaem2CoTiCtrl.allowedStates) ∧
         ¬(s.nb_points_read_per_start = s.nb_points_expected_per_start ∨
           s.aborted = true ∨ s.started = false))) ∧
      ((Albaem2CoTiCtrl.StateAll hw s).2 = true ↔
        ((Albaem2CoTiCtrl.StateAll hw s).1 = .moving ∧ hw = "ON")) := by
  intro hw s
  unfold Albaem2CoTiCtrl.StateAll
  by_cases h1 : hw = "FAULT" ∨ hw ∉ Albaem2CoTiCtrl.allowedStates
  · simp only [if_pos h1]
    simp [h1]
  · simp only [if_neg h1]
    by_cases h2 : s.nb_points_read_per_start = s.nb_points_expected_per_start ∨
        s.aborted = true ∨ s.started = false
    · simp only [if_pos h2]
      simp [h1, h2]
    · simp only [if_neg h2]
      simp [h1, h2]

/-- Claim C7: every read through the acquisition facade `Em2.read`, on
both the streaming path and the SCPI path, has each channel's configured
per-channel formula applied to every sample by the controller's ReadAll
before the data is returned to the caller, with the default 'value'
formula acting as the identity. -/
theorem c7_formula_application :
    ∀ (zmq_receiver_running : Bool) (recv : RecvState)
      (device_data : Int → Option Nat → ScpiData)
      (read_index_bug_flag long_acquisition_scaling_bug_flag : Bool)
      (acquisition_time : ℚ) (formulas : Fin 4 → Formula)
      (nb_points_fetched : Nat) (data_len : Option Nat)
      (d : ScpiData) (recv' : RecvState),
      Em2.read zmq_receiver_running recv device_data read_index_bug_flag
          long_acquisition_scaling_bug_flag acquisition_time
          nb_points_fetched data_len = (.ok d, recv') →
      Albaem2CoTiCtrl.readAllNewData zmq_receiver_running recv device_data
          read_index_bug_flag long_acquisition_scaling_bug_flag
          acquisition_time formulas nb_points_fetched data_len =
        (.ok ⟨d.chan01.map (applyFormula (formulas 0)),
              d.chan02.map (applyFormula (formulas 1)),
              d.chan03.map (applyFormula (formulas 2)),
              d.chan04.map (applyFormula (formulas 3))⟩, recv') ∧
      (∀ v, applyFormula .value v = v) := by
  intro running recv device_data rib lab t formulas fetched data_len d recv' hread
  refine ⟨?_, fun v => rfl⟩
  unfold Albaem2CoTiCtrl.readAllNewData
  rw [hread]
  have hchan : ∀ (fm : Formula) (values : List ℚ),
      Albaem2CoTiCtrl.applyChannelFormula fm values =
        values.map (applyFormula fm) := by
    intro fm values
    cases fm with
    | value => simp [Albaem2CoTiCtrl.applyChannelFormula, applyFormula]
    | custom g => simp [Albaem2CoTiCtrl.applyChannelFormula, applyFormula]
  simp [Albaem2CoTiCtrl.readAllApplyFormulas, hchan]

/-- Claim C7 witness: a successful SCPI-path read with a custom formula
on every channel has the formula applied to each returned sample, and
the default formula is the identity on a sample. -/
theorem c7_formula_application_witness :
    Albaem2CoTiCtrl.readAllNewData false ZmqStreamReceiver.reset_worker_state
        (fun _ _ => ⟨[2], [], [], []⟩) false false 1
        (fun _ => .custom (fun v => v * 10)) 0 none =
      (.ok ⟨[20], [], [], []⟩, ZmqStreamReceiver.reset_worker_state) ∧
    applyFormula .value 7 = 7 := by
  have h := c7_formula_application false ZmqStreamReceiver.reset_worker_state
    (fun _ _ => ⟨[2], [], [], []⟩) false false 1
    (fun _ => .custom (fun v => v * 10)) 0 none
    ⟨[2], [], [], []⟩ ZmqStreamReceiver.reset_worker_state rfl
  refine ⟨h.1.trans ?_, h.2 7⟩
  norm_num [applyFormula]

/-- Claim C8: AbortOne is idempotent — with the aborted flag clear (as
after a configure) the first call issues the device stop command and
marks the run aborted; a further call changes nothing and issues no
stop; and once the aborted flag is set, StateAll resolves to Idle (On)
for every non-fault hardware state regardless of outstanding point
counts. -/
theorem c8_abort_idempotent :
    ∀ (s : Albaem2CoTiCtrl.CtrlState) (hw : String),
      s.aborted = false →
      Albaem2CoTiCtrl.AbortOne s = ({ s with aborted := true }, true) ∧
      (∀ s₂, s₂ = (Albaem2CoTiCtrl.AbortOne s).1 →
        Albaem2CoTiCtrl.AbortOne s₂ = (s₂, false)) ∧
      (hw ≠ "FAULT" → hw ∈ Albaem2CoTiCtrl.allowedStates →
        (Albaem2CoTiCtrl.StateAll hw (Albaem2CoTiCtrl.AbortOne s).1).1 = .on) := by
  intro s hw habort
  have hfirst : Albaem2CoTiCtrl.AbortOne s = ({ s with aborted := true }, true) := by
    unfold Albaem2CoTiCtrl.AbortOne
    rw [if_pos habort]
  refine ⟨hfirst, ?_, ?_⟩
  · intro s₂ hs₂
    rw [hfirst] at hs₂
    subst hs₂
    unfold Albaem2CoTiCtrl.AbortOne
    rw [if_neg (by simp)]
  · intro hne hmem
    rw [hfirst]
    unfold Albaem2CoTiCtrl.StateAll
    rw [if_neg (by simp [hne, hmem])]
    rw [if_pos (by simp)]

/-- Claim C8 witness: a started, unfinished run (0 of 5 points read) —
the first abort stops the device and sets the flag, the second is a
no-op, and the next poll under hardware state ACQUIRING resolves to
Idle (On). -/
theorem c8_abort_idempotent_witness :
    Albaem2CoTiCtrl.AbortOne ⟨true, false, true, 0, 5, 0⟩ =
      (⟨true, true, true, 0, 5, 0⟩, true) ∧
    Albaem2CoTiCtrl.AbortOne ⟨true, true, true, 0, 5, 0⟩ =
      (⟨true, true, true, 0, 5, 0⟩, false) ∧
    (Albaem2CoTiCtrl.StateAll "ACQUIRING" ⟨true, true, true, 0, 5, 0⟩).1 = .on := by
  have h := c8_abort_idempotent ⟨true, false, true, 0, 5, 0⟩ "ACQUIRING" rfl
  exact ⟨h.1, h.2.1 ⟨true, true, true, 0, 5, 0⟩ rfl,
    h.2.2 (by simp) (by simp [Albaem2CoTiCtrl.allowedStates])⟩

/-- Claim C1 witness: the amended characterisation instantiated at
version 1.9.9 (read-index quirk on) and 2.0.0 (long-acquisition quirk
off, streaming unsupported). -/
theorem c1_quirk_flags_witness :
    Em2.read_index_bug [1, 9, 9] = true ∧
    Em2.long_acquisition_scaling_bug [1, 9, 9] = true ∧
    Em2.zmq_streaming_supported [2, 2, 0] = true := by
  refine ⟨?_, ?_, ?_⟩
  · exact (c1_quirk_flags 1 9 9).1.mpr (by simp [specVersionLt])
  · exact (c1_quirk_flags 1 9 9).2.1.mpr
      ⟨by simp [specVersionLe], by simp [specVersionLt]⟩
  · exact (c1_quirk_flags 2 2 0).2.2.mpr (by simp [specVersionLe])

/-- Claim C6 witness: a started, unfinished, unaborted run resolves to
Busy (Moving) under hardware state ACQUIRING without forcing a read,
and forces an immediate ReadAll when the hardware simultaneously
reports ON. -/
theorem c6_state_resolution_witness :
    (Albaem2CoTiCtrl.StateAll "ACQUIRING" ⟨true, false, true, 0, 5, 0⟩).1 =
      .moving ∧
    (Albaem2CoTiCtrl.StateAll "ON" ⟨true, false, true, 0, 5, 0⟩).2 = true ∧
    (Albaem2CoTiCtrl.StateAll "UNKNOWN" ⟨true, false, true, 0, 5, 0⟩).1 =
      .fault := by
  refine ⟨?_, ?_, ?_⟩
  · exact (c6_state_resolution "ACQUIRING" ⟨true, false, true, 0, 5, 0⟩).2.2.1.mpr
      ⟨by simp [Albaem2CoTiCtrl.allowedStates], by simp⟩
  · exact (c6_state_resolution "ON" ⟨true, false, true, 0, 5, 0⟩).2.2.2.mpr
      ⟨(c6_state_resolution "ON" ⟨true, false, true, 0, 5, 0⟩).2.2.1.mpr
        ⟨by simp [Albaem2CoTiCtrl.allowedStates], by simp⟩, rfl⟩
  · exact (c6_state_resolution "UNKNOWN" ⟨true, false, true, 0, 5, 0⟩).1.mpr
      (Or.inr (by simp [Albaem2CoTiCtrl.allowedStates]))
